import Mathlib

/-!
Verification of the chunk reorganization and deduplication query-planning
subsystem of the influxdb_iox storage engine.

The embedding follows the Rust sources:
* `query/src/frontend/reorg.rs` — the `ReorgPlanner` (`compact_plan`,
  `split_plan`, `sorted_scan_plan`);
* `ingester/src/query.rs` — `QueryableBatch` (`new`,
  `min_max_sequence_numbers`, `read_filter`, `delete_predicates`);
* `generated_types/src/parse_delete.rs` and `generated_types/src/google.rs` —
  the conversions between `ProvidedParseDelete` and the management API
  `ParseDelete`.

Collaborator crates that are not part of the excerpt (the schema crate's
`set_sort_key`, the `predicate` crate's `parse_delete_predicate`, the stream
split execution operator, `SnapshotBatch::scan`, and the arrow merge helpers)
are modelled from the specification; each such definition carries a doc
comment saying so.
-/

/-- A computation that, like Rust code, can end in a process-fatal `panic`
(`assert!`/`expect`/explicit `panic!` in the source) rather than return. -/
inductive PanicOr (α : Type) where
  | panic (msg : String)
  | ok (a : α)
deriving DecidableEq, Repr

/-- A fallible computation that can also panic: mirrors a Rust function
returning `Result` whose body additionally contains assertions. -/
inductive PResult (ε α : Type) where
  | panic (msg : String)
  | error (e : ε)
  | ok (a : α)
deriving DecidableEq, Repr

/-! ## Schema model (schema crate, as used by `reorg.rs`) -/

/-- Per-column sort options, mirroring arrow's `SortOptions`
(`descending`, `nulls_first`). -/
structure SortOptions where
  descending : Bool
  nulls_first : Bool
deriving DecidableEq, Repr

/-- A sort key: an ordered sequence of (column name, sort options),
mirroring `schema::sort::SortKey`. -/
abbrev SortKey : Type := List (String × SortOptions)

/-- Logical column types of the schema crate, as far as the claims need. -/
inductive ColumnType where
  | i64
  | u64
  | f64
  | string
  | bool
  | tag
  | timestamp
deriving DecidableEq, Repr

/-- An IOx `Schema`: an ordered sequence of (name, type, nullable) columns
plus an optional declared sort key. -/
structure Schema where
  columns : List (String × ColumnType × Bool)
  sort_key : Option SortKey
deriving DecidableEq, Repr

/-- Modelled from the spec: the schema crate's `Schema::set_sort_key`
replaces the declared sort key of the schema, leaving the columns (names,
types, nullability) unchanged. -/
def Schema.set_sort_key (s : Schema) (key : SortKey) : Schema :=
  { s with sort_key := some key }

/-! ## Chunks and the provider (as seen by `reorg.rs`) -/

/-- The chunk metadata consulted by the reorg planner: `QueryChunk::id()`
and `QueryChunk::table_name()`. Planning never inspects row data. -/
structure QueryChunkModel where
  id : Nat
  table_name : String
deriving DecidableEq, Repr

/-- Modelled from the spec: `query::provider::ChunkTableProvider` built by
`ProviderBuilder::new(table_name, schema)` with `ensure_pk_sort()`, a no-op
pruner and the added chunks; `iox_schema()` returns the schema handed to the
builder. -/
structure ChunkTableProvider where
  table_name : String
  iox_schema : Schema
  chunks : List QueryChunkModel
  ensure_pk_sort : Bool
  no_op_pruner : Bool
deriving DecidableEq, Repr

/-- The logical plans the reorg planner produces: a (sorted, deduplicating)
scan over a provider, optionally wrapped by the stream-split node that
`make_stream_split` adds with its split expression `time <= split_time`. -/
inductive LogicalPlan where
  | scan (provider : ChunkTableProvider)
  | streamSplit (input : LogicalPlan) (split_time : Int)
deriving DecidableEq, Repr

/-- The error enum of `query/src/frontend/reorg.rs`. -/
inductive ReorgError where
  | chunkSchemaNotCompatible
  | buildingPlan
  | creatingProvider (table_name : String)
deriving DecidableEq, Repr

/-- The `ScanPlan` struct of `reorg.rs`: the plan builder (here the scan
plan itself) together with the provider. -/
structure ScanPlan where
  provider : ChunkTableProvider
deriving DecidableEq, Repr

/-- `ReorgPlanner::sorted_scan_plan` (reorg.rs:246-294): peeks the first
chunk for the table name (panicking on an empty iterator), asserts every
chunk's `table_name` against it (an `assert_eq!`, i.e. a panic on mismatch,
raised while adding chunks and hence before any plan is constructed), and
builds the provider with `ensure_pk_sort` and a no-op pruner. -/
def sorted_scan_plan (schema : Schema) (chunks : List QueryChunkModel) :
    PResult ReorgError ScanPlan :=
  match chunks with
  | [] => .panic "No chunks provided to compact plan"
  | c :: rest =>
    let tableName := c.table_name
    if (c :: rest).all (fun ch => ch.table_name == tableName) then
      .ok ⟨⟨tableName, schema, c :: rest, true, true⟩⟩
    else
      .panic "Chunk expected table mismatch"

/-- The copy-on-write sort-key update of `compact_plan`/`split_plan`
(reorg.rs:131-138 and 214-221): when the schema's declared sort key is
absent or differs from `output_sort`, clone the schema and set the key;
otherwise return the provider's schema unchanged. The boolean records
whether a clone was made. -/
def set_sort_key_if_changed (s : Schema) (output_sort : SortKey) :
    Schema × Bool :=
  match s.sort_key with
  | none => (s.set_sort_key output_sort, true)
  | some existing_key =>
    if existing_key = output_sort then (s, false)
    else (s.set_sort_key output_sort, true)

/-- `ReorgPlanner::compact_plan` (reorg.rs:111-147): sorted scan over all
chunks, then the copy-on-write sort-key update, returning the (possibly
updated) schema alongside the plan. -/
def compact_plan (schema : Schema) (chunks : List QueryChunkModel)
    (output_sort : SortKey) : PResult ReorgError (Schema × LogicalPlan) :=
  match sorted_scan_plan schema chunks with
  | .panic m => .panic m
  | .error e => .error e
  | .ok sp =>
    let schema' := (set_sort_key_if_changed sp.provider.iox_schema output_sort).1
    .ok (schema', .scan sp.provider)

/-- `ReorgPlanner::split_plan` (reorg.rs:193-235): identical preparation to
`compact_plan`, then wraps the built plan with `make_stream_split` on the
expression `time <= split_time`. -/
def split_plan (schema : Schema) (chunks : List QueryChunkModel)
    (output_sort : SortKey) (split_time : Int) :
    PResult ReorgError (Schema × LogicalPlan) :=
  match sorted_scan_plan schema chunks with
  | .panic m => .panic m
  | .error e => .error e
  | .ok sp =>
    let schema' := (set_sort_key_if_changed sp.provider.iox_schema output_sort).1
    .ok (schema', .streamSplit (.scan sp.provider) split_time)

/-! ## Execution semantics of the stream split -/

/-- A row of the sorted plan output, as far as the split is concerned:
its `time` column value plus the remaining field values. -/
structure Row where
  time : Int
  fields : List (String × Int)
deriving DecidableEq, Repr

/-- Modelled from the spec: the stream-split operator created by
`make_stream_split` routes each row of its (already sorted) input by the
boundary test `time <= split_time` — rows passing the test form output
partition 0, the rest form partition 1; routing never reorders rows. -/
def split_stream (rows : List Row) (split_time : Int) : List Row × List Row :=
  (rows.filter (fun r => decide (r.time ≤ split_time)),
   rows.filter (fun r => !decide (r.time ≤ split_time)))

/-- Modelled from the spec: executing a split plan over the sorted scan
output applies the stream-split routing; a plan without a split node has no
partition pair. -/
def exec_stream_split : LogicalPlan → List Row → Option (List Row × List Row)
  | .streamSplit _ t, rows => some (split_stream rows t)
  | .scan _, _ => none

/-! ## Delete predicates and tombstones (ingester side) -/

/-- The comparison operators of a delete expression
(`data_types::delete_predicate::Op`). -/
inductive Op where
  | eq
  | ne
deriving DecidableEq, Repr

/-- Scalar literals of a delete expression
(`data_types::delete_predicate::Scalar`, restricted to the variants the
delete grammar of the spec produces). -/
inductive Scalar where
  | i64 (v : Int)
  | string (v : String)
deriving DecidableEq, Repr

/-- One `<column> <op> <literal>` clause of a delete predicate
(`data_types::delete_predicate::DeleteExpr`). -/
structure DeleteExpr where
  column : String
  op : Op
  scalar : Scalar
deriving DecidableEq, Repr

/-- An inclusive nanosecond time range
(`data_types::timestamp::TimestampRange`). -/
structure TimestampRange where
  start : Int
  stop : Int
deriving DecidableEq, Repr

/-- The parsed, evaluable form of a tombstone
(`data_types::delete_predicate::DeletePredicate`). -/
structure DeletePredicate where
  range : TimestampRange
  exprs : List DeleteExpr
deriving DecidableEq, Repr

/-- A tombstone as stored in the catalog (`iox_catalog::interface::Tombstone`,
restricted to the fields `QueryableBatch::new` reads): inclusive nanosecond
time bounds and the serialized predicate text. -/
structure Tombstone where
  min_time : Int
  max_time : Int
  serialized_predicate : String
deriving DecidableEq, Repr

/-- Splits a character list at each (leftmost, non-overlapping) occurrence
of the separator, like `str::split`; the fuel argument (the input length)
makes the recursion structural. -/
def split_on_fuel (sep : List Char) : Nat → List Char → List Char →
    List (List Char)
  | _, [], acc => [acc.reverse]
  | 0, l, acc => [acc.reverse ++ l]
  | fuel + 1, c :: cs, acc =>
    if (c :: cs).take sep.length = sep then
      acc.reverse :: split_on_fuel sep fuel ((c :: cs).drop sep.length) []
    else
      split_on_fuel sep fuel cs (c :: acc)

/-- Splits a string at each occurrence of the separator. -/
def split_on_str (s sep : String) : List String :=
  (split_on_fuel sep.data s.data.length s.data []).map String.mk

/-- Reads a non-empty run of decimal digits as a natural number. -/
def digits_to_nat_aux : List Char → Nat → Option Nat
  | [], acc => some acc
  | c :: cs, acc =>
    if c.isDigit then digits_to_nat_aux cs (10 * acc + (c.toNat - '0'.toNat))
    else none

/-- Reads a decimal natural number; the empty list is a parse error. -/
def digits_to_nat : List Char → Option Nat
  | [] => none
  | l => digits_to_nat_aux l 0

/-- Reads a decimal integer with an optional leading minus sign. -/
def parse_int_str (s : String) : Option Int :=
  match s.data with
  | '-' :: rest => (digits_to_nat rest).map (fun n => -(n : Int))
  | l => (digits_to_nat l).map Int.ofNat

/-- Modelled from the spec: a scalar literal is read as a decimal integer
when it parses as one, and as a string otherwise. -/
def parse_scalar (s : String) : Scalar :=
  match parse_int_str s with
  | some i => .i64 i
  | none => .string s

/-- Modelled from the spec: one clause of the delete grammar is
`<column> <op> <literal>` with `op` either `!=` or `=`; anything else is a
parse error. -/
def parse_clause (s : String) : Option DeleteExpr :=
  match split_on_str s "!=" with
  | [c, v] => some ⟨c, .ne, parse_scalar v⟩
  | _ =>
    match split_on_str s "=" with
    | [c, v] => some ⟨c, .eq, parse_scalar v⟩
    | _ => none

/-- Modelled from the spec: the predicate text is a conjunction of clauses
joined with `and`; an empty text is the empty conjunction; unsupported
syntax in any clause is a parse error. -/
def parse_predicate_text (s : String) : Option (List DeleteExpr) :=
  if s = "" then some []
  else (split_on_str s " and ").mapM parse_clause

/-- Modelled from the spec: the `predicate` crate's
`parse_delete_predicate(start_time, stop_time, predicate)` parses the two
time bounds as decimal integer nanosecond timestamps and the predicate text
as a conjunction of clauses; failure of any part is a parse error for the
whole tombstone. -/
def parse_delete_predicate (start_time stop_time predicate : String) :
    Option DeletePredicate := do
  let mn ← parse_int_str start_time
  let mx ← parse_int_str stop_time
  let exprs ← parse_predicate_text predicate
  some ⟨⟨mn, mx⟩, exprs⟩

/-! ## Queryable batch (`ingester/src/query.rs`) -/

/-- A record batch: named columns, each a list of optional cell values
(`none` is an arrow null). All columns of one batch have the same length. -/
abbrev RecordBatch : Type := List (String × List (Option Int))

/-- The number of rows of a record batch (the length of its columns). -/
def RecordBatch.num_rows (b : RecordBatch) : Nat :=
  match b with
  | [] => 0
  | c :: _ => c.2.length

/-- A snapshot batch (`ingester::data::SnapshotBatch`): an immutable block
of rows tagged with the inclusive sequence-number range of the writes it
represents. -/
structure SnapshotBatch where
  min_sequencer_number : Int
  max_sequencer_number : Int
  data : RecordBatch
deriving DecidableEq, Repr

/-- Column selections (`schema::selection::Selection`). -/
inductive Selection where
  | all
  | some (columns : List String)
deriving DecidableEq, Repr

/-- Modelled from the spec: `SnapshotBatch::scan` projects the requested
column selection (or all columns) out of the batch and returns `none` for a
batch that has none of the requested columns. -/
def SnapshotBatch.scan (s : SnapshotBatch) (selection : Selection) :
    Option RecordBatch :=
  match selection with
  | .all => some s.data
  | .some cols =>
    let kept := s.data.filter (fun c => cols.contains c.1)
    if kept.isEmpty then none else some kept

/-- Modelled from the spec: `schema::merge::merge_record_batch_schemas`
computes the column-wise union of the batch schemas, sorted by column name
for determinism. Here the schema is the sorted, deduplicated list of column
names. -/
def merge_record_batch_schemas (batches : List RecordBatch) : List String :=
  (((batches.map (fun b => b.map Prod.fst)).flatten).dedup).mergeSort (· ≤ ·)

/-- Modelled from the spec: `arrow_util::util::merge_record_batches`
concatenates the batches into one batch over the merged schema, padding any
column absent from a given batch with nulls for that batch's rows; with no
input batches there is nothing to merge and the result is `none`. -/
def merge_record_batches (schema : List String) (batches : List RecordBatch) :
    Option RecordBatch :=
  if batches.isEmpty then none
  else
    some (schema.map (fun name =>
      (name, (batches.map (fun b =>
        match b.find? (fun c => c.1 = name) with
        | some c => c.2
        | none => List.replicate b.num_rows none)).flatten)))

/-- Modelled from the spec: the external `predicate::Predicate` handed to
`read_filter`; this component never reads it. -/
structure Predicate where
  exprs : List String
deriving DecidableEq, Repr

/-- The error enum of `ingester/src/query.rs`. -/
inductive IngesterQueryError where
  | concatBatches
  | filterColumns
deriving DecidableEq, Repr

/-- The single-partition record-batch stream `read_filter` returns: the
merged schema together with the batches pushed onto the stream. -/
structure RecordBatchStream where
  schema : List String
  batches : List RecordBatch
deriving DecidableEq, Repr

/-- Total number of rows carried by a stream. -/
def RecordBatchStream.num_rows (s : RecordBatchStream) : Nat :=
  (s.batches.map RecordBatch.num_rows).sum

/-- The ingester's `QueryableBatch` (`ingester::data::QueryableBatch`):
snapshot batches, tombstones, the delete predicates precomputed from the
tombstones, and the table name. -/
structure QueryableBatch where
  data : List SnapshotBatch
  deletes : List Tombstone
  delete_predicates : List DeletePredicate
  table_name : String
deriving DecidableEq, Repr

/-- The construction loop of `QueryableBatch::new` (query.rs:43-55): each
tombstone's time bounds are stringified and parsed back together with its
serialized predicate text; the first failure aborts the whole construction
(the `expect` call panics). -/
def build_delete_predicates : List Tombstone → Option (List DeletePredicate)
  | [] => some []
  | t :: ts =>
    match parse_delete_predicate (toString t.min_time) (toString t.max_time)
        t.serialized_predicate with
    | none => none
    | some p =>
      match build_delete_predicates ts with
      | none => none
      | some ps => some (p :: ps)

/-- `QueryableBatch::new` (query.rs:42-63): converts every tombstone into a
delete predicate, panicking (`expect("Error building delete predicate")`)
on the first malformed one, and stores data, tombstones and the predicate
list. -/
def QueryableBatch.new (table_name : String) (data : List SnapshotBatch)
    (deletes : List Tombstone) : PanicOr QueryableBatch :=
  match build_delete_predicates deletes with
  | none => .panic "Error building delete predicate"
  | some ps => .ok ⟨data, deletes, ps, table_name⟩

/-- `QueryableBatch::min_max_sequence_numbers` (query.rs:66-82): takes both
the min and the max from the *first* snapshot batch, panicking when there
is none, and asserts `min <= max`. -/
def QueryableBatch.min_max_sequence_numbers (qb : QueryableBatch) :
    PanicOr (Int × Int) :=
  match qb.data with
  | [] => .panic "The Queryable Batch should not empty"
  | b :: _ =>
    if b.min_sequencer_number ≤ b.max_sequencer_number then
      .ok (b.min_sequencer_number, b.max_sequencer_number)
    else
      .panic "assertion failed: min <= max"

/-- `QueryableBatch::read_filter` (query.rs:183-216): scans every snapshot
batch with the selection, keeps the batches that contributed, merges their
schemas, concatenates them with null padding, and returns a single-partition
stream; the `_predicate` argument is never read. -/
def QueryableBatch.read_filter (qb : QueryableBatch) (_predicate : Predicate)
    (selection : Selection) :
    Except IngesterQueryError RecordBatchStream :=
  let batches := qb.data.filterMap (fun s => s.scan selection)
  let schema := merge_record_batch_schemas batches
  let batch := merge_record_batches schema batches
  let stream_batches :=
    match batch with
    | some b => [b]
    | none => []
  .ok ⟨schema, stream_batches⟩

/-! ## Management API delete conversions (`generated_types`) -/

/-- `google::FieldViolation` (generated_types/src/google.rs:166-170): the
error returned when a request field has an invalid value. -/
structure FieldViolation where
  field : String
  description : String
deriving DecidableEq, Repr

/-- `FieldViolation::required` (google.rs:173-178). -/
def FieldViolation.required (field : String) : FieldViolation :=
  ⟨field, "Field is required"⟩

/-- `FieldViolation::scope` (google.rs:181-193): re-scopes the error as the
child of another field. -/
def FieldViolation.scope (v : FieldViolation) (field : String) : FieldViolation :=
  if v.field = "" then ⟨field, v.description⟩
  else ⟨field ++ "." ++ v.field, v.description⟩

/-- The delete operators of the line-protocol delete grammar
(`influxdb_line_protocol::delete_parser::ProvidedDeleteOp`): `=` and `!=`. -/
inductive ProvidedDeleteOp where
  | eq
  | notEq
deriving DecidableEq, Repr

/-- `influxdb_line_protocol::delete_parser::ProvidedDeleteBinaryExpr`:
one `column op value` expression of a parsed delete. -/
structure ProvidedDeleteBinaryExpr where
  column : String
  op : ProvidedDeleteOp
  value : String
deriving DecidableEq, Repr

/-- `influxdb_line_protocol::delete_parser::ProvidedParseDelete`: the
parsed delete: start/stop times plus the predicate expressions. -/
structure ProvidedParseDelete where
  start_time : Int
  stop_time : Int
  predicate : List ProvidedDeleteBinaryExpr
deriving DecidableEq, Repr

namespace management

/-- Modelled from the spec: the prost-generated management API enum
`DeleteOp` with the protobuf values `Unspecified = 0`, `Eq = 1`,
`NotEq = 2`. -/
inductive DeleteOp where
  | unspecified
  | eq
  | notEq
deriving DecidableEq, Repr

/-- Modelled from the spec: the protobuf wire value of a `DeleteOp`
(the `.into()` from the enum to `i32`). -/
def DeleteOp.toI32 : DeleteOp → Int
  | .unspecified => 0
  | .eq => 1
  | .notEq => 2

/-- Modelled from the spec: prost's `DeleteOp::from_i32`, which recognizes
exactly the declared values and rejects any other integer. -/
def DeleteOp.from_i32 (v : Int) : Option DeleteOp :=
  if v = 0 then some .unspecified
  else if v = 1 then some .eq
  else if v = 2 then some .notEq
  else none

/-- Modelled from the spec: the prost-generated management API message
`DeleteBinaryExpr`, whose `op` field is carried as an `i32`. -/
structure DeleteBinaryExpr where
  column : String
  op : Int
  value : String
deriving DecidableEq, Repr

/-- Modelled from the spec: the prost-generated management API message
`ParseDelete`. -/
structure ParseDelete where
  start_time : Int
  stop_time : Int
  exprs : List DeleteBinaryExpr
deriving DecidableEq, Repr

end management

/-- `From<ProvidedDeleteOp> for management::DeleteOp`
(parse_delete.rs:13-20). -/
def deleteOp_from_provided : ProvidedDeleteOp → management.DeleteOp
  | .eq => .eq
  | .notEq => .notEq

/-- `TryFrom<management::DeleteOp> for ProvidedDeleteOp`
(parse_delete.rs:23-33): `Unspecified` is a `FieldViolation::required("")`. -/
def providedDeleteOp_tryFrom (proto : management.DeleteOp) :
    Except FieldViolation ProvidedDeleteOp :=
  match proto with
  | .eq => .ok .eq
  | .notEq => .ok .notEq
  | .unspecified => .error (FieldViolation.required "")

/-- `From<ProvidedDeleteBinaryExpr> for management::DeleteBinaryExpr`
(parse_delete.rs:37-47): the op is encoded to its `i32` wire value. -/
def deleteBinaryExpr_from_provided (bin_expr : ProvidedDeleteBinaryExpr) :
    management.DeleteBinaryExpr :=
  ⟨bin_expr.column, (deleteOp_from_provided bin_expr.op).toI32, bin_expr.value⟩

/-- `TryFrom<management::DeleteBinaryExpr> for ProvidedDeleteBinaryExpr`
(parse_delete.rs:50-62): `DeleteOp::from_i32(op).required("op")?` — an
unrecognized value is `FieldViolation::required("op")`, and the error of
the enum conversion is scoped under `"op"`. -/
def providedDeleteBinaryExpr_tryFrom (proto : management.DeleteBinaryExpr) :
    Except FieldViolation ProvidedDeleteBinaryExpr :=
  match management.DeleteOp.from_i32 proto.op with
  | none => .error (FieldViolation.required "op")
  | some d =>
    match providedDeleteOp_tryFrom d with
    | .error v => .error (v.scope "op")
    | .ok op => .ok ⟨proto.column, op, proto.value⟩

/-- `From<ProvidedParseDelete> for management::ParseDelete`
(parse_delete.rs:65-79). -/
def parseDelete_from_provided (parse_delete : ProvidedParseDelete) :
    management.ParseDelete :=
  ⟨parse_delete.start_time, parse_delete.stop_time,
   parse_delete.predicate.map deleteBinaryExpr_from_provided⟩

/-- The `collect` over the expression conversions in
`TryFrom<management::ParseDelete>` (parse_delete.rs:92-95): short-circuits
on the first failing expression. -/
def collect_provided_exprs : List management.DeleteBinaryExpr →
    Except FieldViolation (List ProvidedDeleteBinaryExpr)
  | [] => .ok []
  | e :: es =>
    match providedDeleteBinaryExpr_tryFrom e with
    | .error v => .error v
    | .ok e' =>
      match collect_provided_exprs es with
      | .error v => .error v
      | .ok es' => .ok (e' :: es')

/-- `TryFrom<management::ParseDelete> for ProvidedParseDelete`
(parse_delete.rs:82-103). -/
def providedParseDelete_tryFrom (proto : management.ParseDelete) :
    Except FieldViolation ProvidedParseDelete :=
  match collect_provided_exprs proto.exprs with
  | .error v => .error v
  | .ok pred => .ok ⟨proto.start_time, proto.stop_time, pred⟩

/-! ## Helper lemmas -/

/-- The copy-on-write sort-key update always yields a schema declaring the
requested key, never touches the columns, is the identity when the key
already matches, and clones exactly when the key changes. -/
theorem set_sort_key_if_changed_spec (s : Schema) (out : SortKey) :
    ((set_sort_key_if_changed s out).1).sort_key = some out ∧
    ((set_sort_key_if_changed s out).1).columns = s.columns ∧
    (s.sort_key = some out → (set_sort_key_if_changed s out).1 = s) ∧
    ((set_sort_key_if_changed s out).2 = false ↔ s.sort_key = some out) := by
  cases hk : s.sort_key with
  | none => simp [set_sort_key_if_changed, Schema.set_sort_key, hk]
  | some k =>
    by_cases hko : k = out <;>
      simp [set_sort_key_if_changed, Schema.set_sort_key, hk, hko]

/-- A successful `compact_plan` forces a non-empty, table-consistent chunk
list and determines the returned schema and plan. -/
theorem compact_plan_ok_elim (schema : Schema) (c : QueryChunkModel)
    (rest : List QueryChunkModel) (out : SortKey) (sc : Schema)
    (pc : LogicalPlan)
    (hc : compact_plan schema (c :: rest) out = .ok (sc, pc)) :
    sc = (set_sort_key_if_changed schema out).1 := by
  rcases hall : (c :: rest).all (fun ch => ch.table_name == c.table_name) with _ | _
  · simp [compact_plan, sorted_scan_plan, hall] at hc
  · simp [compact_plan, sorted_scan_plan, hall] at hc
    exact hc.1.symm

/-- A successful `split_plan` determines the returned schema and the shape
of the returned plan: a stream split at `split_time` over the sorted scan. -/
theorem split_plan_ok_elim (schema : Schema) (c : QueryChunkModel)
    (rest : List QueryChunkModel) (out : SortKey) (t : Int) (ss : Schema)
    (ps : LogicalPlan)
    (hs : split_plan schema (c :: rest) out t = .ok (ss, ps)) :
    ss = (set_sort_key_if_changed schema out).1 ∧
    ps = .streamSplit
      (.scan ⟨c.table_name, schema, c :: rest, true, true⟩) t := by
  rcases hall : (c :: rest).all (fun ch => ch.table_name == c.table_name) with _ | _
  · simp [split_plan, sorted_scan_plan, hall] at hs
  · simp [split_plan, sorted_scan_plan, hall] at hs
    exact ⟨hs.1.symm, hs.2.symm⟩

/-! ## Claim theorems: reorg planner -/

/-- C4: calling `compact_plan` or `split_plan` with an empty chunk iterator
is a fatal precondition failure — a panic (there is no chunk from which to
infer the table name), not a returned recoverable error. -/
theorem empty_chunks_panics (schema : Schema) (out : SortKey) (t : Int) :
    compact_plan schema [] out = .panic "No chunks provided to compact plan" ∧
    split_plan schema [] out t = .panic "No chunks provided to compact plan" :=
  ⟨rfl, rfl⟩

/-- C3: for every call to `compact_plan` or `split_plan` with a non-empty
chunk list in which some chunk reports a table name different from the
first chunk's, the call panics (the `assert_eq!` while adding chunks — a
fatal assertion, not a recoverable error), so no plan value is ever
constructed or returned. -/
theorem cross_table_chunks_panic (schema : Schema) (out : SortKey) (t : Int)
    (c : QueryChunkModel) (rest : List QueryChunkModel)
    (h : ∃ c' ∈ c :: rest, c'.table_name ≠ c.table_name) :
    compact_plan schema (c :: rest) out = .panic "Chunk expected table mismatch" ∧
    split_plan schema (c :: rest) out t = .panic "Chunk expected table mismatch" := by
  have hall : (c :: rest).all (fun ch => ch.table_name == c.table_name) = false := by
    obtain ⟨c', hmem, hne⟩ := h
    apply List.all_eq_false.mpr
    exact ⟨c', hmem, by simpa using hne⟩
  constructor <;> simp [compact_plan, split_plan, sorted_scan_plan, hall]

/-- C3 witness: two chunks of different tables make `compact_plan` and
`split_plan` panic. -/
theorem cross_table_chunks_panic_witness :
    (∃ c' ∈ [(⟨1, "t1"⟩ : QueryChunkModel), ⟨2, "t2"⟩],
      c'.table_name ≠ (⟨1, "t1"⟩ : QueryChunkModel).table_name) ∧
    compact_plan ⟨[], none⟩ [⟨1, "t1"⟩, ⟨2, "t2"⟩] [] =
      .panic "Chunk expected table mismatch" ∧
    split_plan ⟨[], none⟩ [⟨1, "t1"⟩, ⟨2, "t2"⟩] [] 0 =
      .panic "Chunk expected table mismatch" := by
  refine ⟨⟨⟨2, "t2"⟩, by simp, by decide⟩, ?_⟩
  exact cross_table_chunks_panic ⟨[], none⟩ [] 0 ⟨1, "t1"⟩ [⟨2, "t2"⟩]
    ⟨⟨2, "t2"⟩, by simp, by decide⟩

/-- C2: for every successful `compact_plan` or `split_plan`, the returned
schema declares exactly the requested `output_sort_key`; the schema is
cloned only when its existing sort key differs from the requested one (when
it already matches, the provider's schema is returned unchanged); and the
columns (names, types, nullability) are unchanged from the provider's
schema. -/
theorem plan_schema_sort_key_update (schema : Schema) (c : QueryChunkModel)
    (rest : List QueryChunkModel) (out : SortKey) (t : Int)
    (sc ss : Schema) (pc ps : LogicalPlan)
    (hc : compact_plan schema (c :: rest) out = .ok (sc, pc))
    (hs : split_plan schema (c :: rest) out t = .ok (ss, ps)) :
    sc.sort_key = some out ∧
    sc.columns = schema.columns ∧
    (schema.sort_key = some out → sc = schema) ∧
    ss = sc ∧
    ((set_sort_key_if_changed schema out).2 = false ↔
      schema.sort_key = some out) := by
  have hsc := compact_plan_ok_elim schema c rest out sc pc hc
  have hss := (split_plan_ok_elim schema c rest out t ss ps hs).1
  obtain ⟨h1, h2, h3, h4⟩ := set_sort_key_if_changed_spec schema out
  subst hsc
  exact ⟨h1, h2, h3, hss, h4⟩

/-- C2 witness: a compact/split call whose input schema declares a sort key
different from the requested one. -/
theorem plan_schema_sort_key_update_witness :
    compact_plan ⟨[("time", .timestamp, false)], some []⟩ [⟨1, "t"⟩]
      [("time", ⟨false, false⟩)] =
      .ok (⟨[("time", .timestamp, false)], some [("time", ⟨false, false⟩)]⟩,
        .scan ⟨"t", ⟨[("time", .timestamp, false)], some []⟩, [⟨1, "t"⟩],
          true, true⟩) ∧
    split_plan ⟨[("time", .timestamp, false)], some []⟩ [⟨1, "t"⟩]
      [("time", ⟨false, false⟩)] 5 =
      .ok (⟨[("time", .timestamp, false)], some [("time", ⟨false, false⟩)]⟩,
        .streamSplit (.scan ⟨"t", ⟨[("time", .timestamp, false)], some []⟩,
          [⟨1, "t"⟩], true, true⟩) 5) ∧
    (⟨[("time", .timestamp, false)],
        some [("time", ⟨false, false⟩)]⟩ : Schema).sort_key =
      some [("time", ⟨false, false⟩)] := by
  refine ⟨by decide, by decide, ?_⟩
  exact (plan_schema_sort_key_update ⟨[("time", .timestamp, false)], some []⟩
    ⟨1, "t"⟩ [] [("time", ⟨false, false⟩)] 5
    ⟨[("time", .timestamp, false)], some [("time", ⟨false, false⟩)]⟩
    ⟨[("time", .timestamp, false)], some [("time", ⟨false, false⟩)]⟩
    (.scan ⟨"t", ⟨[("time", .timestamp, false)], some []⟩, [⟨1, "t"⟩],
      true, true⟩)
    (.streamSplit (.scan ⟨"t", ⟨[("time", .timestamp, false)], some []⟩,
      [⟨1, "t"⟩], true, true⟩) 5)
    (by decide) (by decide)).1

/-- C1: every successful `split_plan` yields a plan that partitions the
sorted output into exactly two streams by the boundary test
`time <= split_time`: partition 0 receives every row on or before the
boundary, partition 1 every row after it; both partitions keep the order
of the sorted input (so row order within each partition matches the
requested sort key), and together they carry exactly the input rows. -/
theorem split_plan_partitions_by_time (schema : Schema)
    (chunks : List QueryChunkModel) (out : SortKey) (t : Int)
    (s' : Schema) (plan : LogicalPlan)
    (h : split_plan schema chunks out t = .ok (s', plan))
    (le : Row → Row → Prop) (rows : List Row)
    (hsorted : List.Sorted le rows) :
    (∃ provider, plan = .streamSplit (.scan provider) t) ∧
    exec_stream_split plan rows = some (split_stream rows t) ∧
    (∀ r, r ∈ (split_stream rows t).1 ↔ r ∈ rows ∧ r.time ≤ t) ∧
    (∀ r, r ∈ (split_stream rows t).2 ↔ r ∈ rows ∧ t < r.time) ∧
    List.Sorted le (split_stream rows t).1 ∧
    List.Sorted le (split_stream rows t).2 ∧
    ((split_stream rows t).1 ++ (split_stream rows t).2).Perm rows := by
  obtain ⟨c, rest, rfl⟩ : ∃ c rest, chunks = c :: rest := by
    cases chunks with
    | nil => simp [split_plan, sorted_scan_plan] at h
    | cons c rest => exact ⟨c, rest, rfl⟩
  obtain ⟨-, hplan⟩ := split_plan_ok_elim schema c rest out t s' plan h
  refine ⟨⟨_, hplan⟩, by rw [hplan]; rfl, ?_, ?_, ?_, ?_, ?_⟩
  · intro r
    simp [split_stream, List.mem_filter]
  · intro r
    simp [split_stream, List.mem_filter, Int.not_le]
  · exact hsorted.filter _
  · exact hsorted.filter _
  · exact List.filter_append_perm _ rows

/-- C1 witness: five rows at times 1000, 2000, 2000, 3000, 4000 sorted by
time and split at 2000. -/
theorem split_plan_partitions_by_time_witness :
    split_plan ⟨[("time", .timestamp, false)], none⟩ [⟨1, "t"⟩]
      [("time", ⟨false, false⟩)] 2000 =
      .ok (⟨[("time", .timestamp, false)], some [("time", ⟨false, false⟩)]⟩,
        .streamSplit (.scan ⟨"t", ⟨[("time", .timestamp, false)], none⟩,
          [⟨1, "t"⟩], true, true⟩) 2000) ∧
    List.Sorted (fun a b : Row => a.time ≤ b.time)
      [⟨1000, []⟩, ⟨2000, []⟩, ⟨2000, []⟩, ⟨3000, []⟩, ⟨4000, []⟩] ∧
    split_stream [⟨1000, []⟩, ⟨2000, []⟩, ⟨2000, []⟩, ⟨3000, []⟩, ⟨4000, []⟩]
      2000 =
      ([⟨1000, []⟩, ⟨2000, []⟩, ⟨2000, []⟩], [⟨3000, []⟩, ⟨4000, []⟩]) ∧
    List.Sorted (fun a b : Row => a.time ≤ b.time)
      (split_stream [⟨1000, []⟩, ⟨2000, []⟩, ⟨2000, []⟩, ⟨3000, []⟩,
        ⟨4000, []⟩] 2000).1 := by
  refine ⟨by decide, by decide, by decide, ?_⟩
  exact (split_plan_partitions_by_time ⟨[("time", .timestamp, false)], none⟩
    [⟨1, "t"⟩] [("time", ⟨false, false⟩)] 2000
    ⟨[("time", .timestamp, false)], some [("time", ⟨false, false⟩)]⟩
    (.streamSplit (.scan ⟨"t", ⟨[("time", .timestamp, false)], none⟩,
      [⟨1, "t"⟩], true, true⟩) 2000)
    (by decide) (fun a b : Row => a.time ≤ b.time)
    [⟨1000, []⟩, ⟨2000, []⟩, ⟨2000, []⟩, ⟨3000, []⟩, ⟨4000, []⟩]
    (by decide)).2.2.2.2.1

/-! ## Claim theorems: queryable batch -/

/-- The construction loop fails when some tombstone fails to parse. -/
theorem build_delete_predicates_eq_none (deletes : List Tombstone)
    (h : ∃ tb ∈ deletes, parse_delete_predicate (toString tb.min_time)
      (toString tb.max_time) tb.serialized_predicate = none) :
    build_delete_predicates deletes = none := by
  induction deletes with
  | nil => simp at h
  | cons t ts ih =>
    obtain ⟨tb, htb, hptb⟩ := h
    rcases List.mem_cons.mp htb with rfl | hmem
    · simp [build_delete_predicates, hptb]
    · cases hp : parse_delete_predicate (toString t.min_time)
          (toString t.max_time) t.serialized_predicate with
      | none => simp [build_delete_predicates, hp]
      | some p =>
        simp [build_delete_predicates, hp, ih ⟨tb, hmem, hptb⟩]

/-- A successful construction loop converts the tombstones one-to-one, in
order. -/
theorem build_delete_predicates_eq_some (deletes : List Tombstone)
    (ps : List DeletePredicate)
    (h : build_delete_predicates deletes = some ps) :
    ps.map some = deletes.map (fun tb => parse_delete_predicate
      (toString tb.min_time) (toString tb.max_time)
      tb.serialized_predicate) := by
  induction deletes generalizing ps with
  | nil =>
    simp [build_delete_predicates] at h
    simp [← h]
  | cons t ts ih =>
    cases hp : parse_delete_predicate (toString t.min_time)
        (toString t.max_time) t.serialized_predicate with
    | none => simp [build_delete_predicates, hp] at h
    | some p =>
      cases hb : build_delete_predicates ts with
      | none => simp [build_delete_predicates, hp, hb] at h
      | some ps' =>
        simp [build_delete_predicates, hp, hb] at h
        simp [← h, hp, ih ps' hb]

/-- C5: when any tombstone's time bounds or serialized predicate text fail
to parse, `QueryableBatch::new` is a fatal (panicking) construction error:
no `QueryableBatch` is produced, so the malformed tombstone is never
silently dropped from the resulting delete predicates. -/
theorem queryable_batch_new_parse_failure_fatal (table_name : String)
    (data : List SnapshotBatch) (deletes : List Tombstone)
    (h : ∃ tb ∈ deletes, parse_delete_predicate (toString tb.min_time)
      (toString tb.max_time) tb.serialized_predicate = none) :
    QueryableBatch.new table_name data deletes =
      .panic "Error building delete predicate" ∧
    ∀ qb, QueryableBatch.new table_name data deletes ≠ .ok qb := by
  have hb : build_delete_predicates deletes = none :=
    build_delete_predicates_eq_none deletes h
  refine ⟨by simp [QueryableBatch.new, hb], ?_⟩
  intro qb
  simp [QueryableBatch.new, hb]

/-- C5 witness: a tombstone whose predicate text `temp<10` uses an
unsupported operator. -/
theorem queryable_batch_new_parse_failure_fatal_witness :
    (∃ tb ∈ [(⟨100, 200, "temp<10"⟩ : Tombstone)],
      parse_delete_predicate (toString tb.min_time) (toString tb.max_time)
        tb.serialized_predicate = none) ∧
    QueryableBatch.new "t" [] [⟨100, 200, "temp<10"⟩] =
      .panic "Error building delete predicate" := by
  refine ⟨⟨⟨100, 200, "temp<10"⟩, by simp, by decide⟩, ?_⟩
  exact (queryable_batch_new_parse_failure_fatal "t" [] [⟨100, 200, "temp<10"⟩]
    ⟨⟨100, 200, "temp<10"⟩, by simp, by decide⟩).1

/-- C6: every successfully constructed `QueryableBatch` carries exactly one
delete predicate per tombstone, in tombstone order, each derived from that
tombstone's `min_time`, `max_time` and serialized predicate text, and
`delete_predicates` returns this list precomputed at construction time. -/
theorem queryable_batch_delete_predicates_one_to_one (table_name : String)
    (data : List SnapshotBatch) (deletes : List Tombstone)
    (qb : QueryableBatch)
    (h : QueryableBatch.new table_name data deletes = .ok qb) :
    qb.delete_predicates.map some = deletes.map (fun tb =>
      parse_delete_predicate (toString tb.min_time) (toString tb.max_time)
        tb.serialized_predicate) ∧
    qb.delete_predicates.length = deletes.length ∧
    qb.deletes = deletes := by
  cases hb : build_delete_predicates deletes with
  | none => simp [QueryableBatch.new, hb] at h
  | some ps =>
    simp [QueryableBatch.new, hb] at h
    have hmap := build_delete_predicates_eq_some deletes ps hb
    subst h
    refine ⟨hmap, ?_, rfl⟩
    have := congrArg List.length hmap
    simpa using this

/-- C6 witness: the two tombstones of the repository's own test
`test_tombstones_to_delete_predicates`. -/
theorem queryable_batch_delete_predicates_one_to_one_witness :
    QueryableBatch.new "test_table" []
      [⟨100, 200, "temp=10"⟩, ⟨100, 350, "temp!=10 and city=Boston"⟩] =
      .ok ⟨[], [⟨100, 200, "temp=10"⟩, ⟨100, 350, "temp!=10 and city=Boston"⟩],
        [⟨⟨100, 200⟩, [⟨"temp", .eq, .i64 10⟩]⟩,
         ⟨⟨100, 350⟩, [⟨"temp", .ne, .i64 10⟩, ⟨"city", .eq, .string "Boston"⟩]⟩],
        "test_table"⟩ ∧
    ([⟨⟨100, 200⟩, [⟨"temp", .eq, .i64 10⟩]⟩,
      ⟨⟨100, 350⟩, [⟨"temp", .ne, .i64 10⟩, ⟨"city", .eq, .string "Boston"⟩]⟩]
        : List DeletePredicate).map some =
      [(⟨100, 200, "temp=10"⟩ : Tombstone),
        ⟨100, 350, "temp!=10 and city=Boston"⟩].map (fun tb =>
        parse_delete_predicate (toString tb.min_time) (toString tb.max_time)
          tb.serialized_predicate) := by
  refine ⟨by decide, ?_⟩
  exact (queryable_batch_delete_predicates_one_to_one "test_table" []
    [⟨100, 200, "temp=10"⟩, ⟨100, 350, "temp!=10 and city=Boston"⟩]
    ⟨[], [⟨100, 200, "temp=10"⟩, ⟨100, 350, "temp!=10 and city=Boston"⟩],
      [⟨⟨100, 200⟩, [⟨"temp", .eq, .i64 10⟩]⟩,
       ⟨⟨100, 350⟩, [⟨"temp", .ne, .i64 10⟩, ⟨"city", .eq, .string "Boston"⟩]⟩],
      "test_table"⟩ (by decide)).1

/-- C9: `min_max_sequence_numbers` panics on a `QueryableBatch` without
snapshot batches; with at least one it returns the pair taken from the
*first* snapshot batch only — later snapshot batches never influence the
result — and it asserts (panicking otherwise) that the returned min is at
most the returned max. -/
theorem min_max_sequence_numbers_first_only (table_name : String)
    (b : SnapshotBatch) (rest rest' : List SnapshotBatch)
    (deletes : List Tombstone) (preds : List DeletePredicate)
    (h : b.min_sequencer_number ≤ b.max_sequencer_number) :
    QueryableBatch.min_max_sequence_numbers ⟨[], deletes, preds, table_name⟩ =
      .panic "The Queryable Batch should not empty" ∧
    QueryableBatch.min_max_sequence_numbers
        ⟨b :: rest, deletes, preds, table_name⟩ =
      .ok (b.min_sequencer_number, b.max_sequencer_number) ∧
    QueryableBatch.min_max_sequence_numbers
        ⟨b :: rest, deletes, preds, table_name⟩ =
      QueryableBatch.min_max_sequence_numbers
        ⟨b :: rest', deletes, preds, table_name⟩ ∧
    (∀ b' : SnapshotBatch,
      ¬ b'.min_sequencer_number ≤ b'.max_sequencer_number →
      QueryableBatch.min_max_sequence_numbers
          ⟨b' :: rest, deletes, preds, table_name⟩ =
        .panic "assertion failed: min <= max") := by
  refine ⟨rfl, ?_, ?_, ?_⟩
  · simp [QueryableBatch.min_max_sequence_numbers, h]
  · simp [QueryableBatch.min_max_sequence_numbers]
  · intro b' hb'
    simp [QueryableBatch.min_max_sequence_numbers, hb']

/-- C9 witness: a batch with sequence bounds 1 and 2 in front of an
arbitrary second batch. -/
theorem min_max_sequence_numbers_first_only_witness :
    ((⟨1, 2, []⟩ : SnapshotBatch).min_sequencer_number ≤
      (⟨1, 2, []⟩ : SnapshotBatch).max_sequencer_number) ∧
    QueryableBatch.min_max_sequence_numbers ⟨[], [], [], "t"⟩ =
      .panic "The Queryable Batch should not empty" ∧
    QueryableBatch.min_max_sequence_numbers
        ⟨[⟨1, 2, []⟩, ⟨5, 9, []⟩], [], [], "t"⟩ = .ok (1, 2) :=
  ⟨by decide,
   (min_max_sequence_numbers_first_only "t" ⟨1, 2, []⟩ [⟨5, 9, []⟩] [] [] []
     (by decide)).1,
   (min_max_sequence_numbers_first_only "t" ⟨1, 2, []⟩ [⟨5, 9, []⟩] [] [] []
     (by decide)).2.1⟩

/-- C7: `read_filter` never reads its predicate argument: for every
queryable batch and selection, any two predicates produce the same
result. -/
theorem read_filter_ignores_predicate (qb : QueryableBatch)
    (p1 p2 : Predicate) (selection : Selection) :
    qb.read_filter p1 selection = qb.read_filter p2 selection := rfl

/-- C8: a selection containing no column present in any snapshot batch
makes `read_filter` return `Ok` with an empty, zero-row stream — never an
error. -/
theorem read_filter_unknown_columns_ok (qb : QueryableBatch)
    (p : Predicate) (cols : List String)
    (h : ∀ s ∈ qb.data, ∀ c ∈ s.data, c.1 ∉ cols) :
    qb.read_filter p (.some cols) = .ok ⟨[], []⟩ ∧
    RecordBatchStream.num_rows ⟨[], []⟩ = 0 := by
  have hscan : ∀ s ∈ qb.data, s.scan (.some cols) = none := by
    intro s hs
    have hfil : s.data.filter (fun c => cols.contains c.1) = [] := by
      rw [List.filter_eq_nil_iff]
      rintro ⟨name, cells⟩ hc
      have hnc := h s hs (name, cells) hc
      simpa using hnc
    simp [SnapshotBatch.scan, hfil]
    intro name cells hc
    exact h s hs (name, cells) hc
  have hbatches : qb.data.filterMap (fun s => s.scan (.some cols)) = [] := by
    rw [List.filterMap_eq_nil_iff]
    intro s hs
    exact hscan s hs
  refine ⟨?_, rfl⟩
  simp [QueryableBatch.read_filter, hbatches, merge_record_batch_schemas,
    merge_record_batches]

/-- C8 witness: a batch holding only a `time` column, selected on the
absent column `foo`. -/
theorem read_filter_unknown_columns_ok_witness :
    (∀ s ∈ [(⟨1, 1, [("time", [some 10])]⟩ : SnapshotBatch)],
      ∀ c ∈ s.data, c.1 ∉ ["foo"]) ∧
    QueryableBatch.read_filter ⟨[⟨1, 1, [("time", [some 10])]⟩], [], [], "t"⟩
      ⟨[]⟩ (.some ["foo"]) = .ok ⟨[], []⟩ := by
  refine ⟨by decide, ?_⟩
  exact (read_filter_unknown_columns_ok
    ⟨[⟨1, 1, [("time", [some 10])]⟩], [], [], "t"⟩ ⟨[]⟩ ["foo"]
    (by decide)).1

/-! ## Claim theorems: management delete conversions -/

/-- A binary expression survives the round trip through the management
API representation. -/
theorem deleteBinaryExpr_round_trip (e : ProvidedDeleteBinaryExpr) :
    providedDeleteBinaryExpr_tryFrom (deleteBinaryExpr_from_provided e) =
      .ok e := by
  cases e with
  | mk column op value => cases op <;> rfl

/-- The expression list survives the round trip through the management
API representation. -/
theorem collect_provided_exprs_round_trip
    (es : List ProvidedDeleteBinaryExpr) :
    collect_provided_exprs (es.map deleteBinaryExpr_from_provided) =
      .ok es := by
  induction es with
  | nil => rfl
  | cons e es ih =>
    simp [collect_provided_exprs, deleteBinaryExpr_round_trip e, ih]

/-- A single expression conversion fails exactly when its operator wire
value is neither `Eq` (1) nor `NotEq` (2). -/
theorem deleteBinaryExpr_tryFrom_fails_iff (e : management.DeleteBinaryExpr) :
    (∃ v, providedDeleteBinaryExpr_tryFrom e = .error v) ↔
      e.op ≠ 1 ∧ e.op ≠ 2 := by
  by_cases h0 : e.op = 0
  · simp [providedDeleteBinaryExpr_tryFrom, management.DeleteOp.from_i32, h0,
      providedDeleteOp_tryFrom]
  · by_cases h1 : e.op = 1
    · simp [providedDeleteBinaryExpr_tryFrom, management.DeleteOp.from_i32,
        h0, h1, providedDeleteOp_tryFrom]
    · by_cases h2 : e.op = 2
      · simp [providedDeleteBinaryExpr_tryFrom, management.DeleteOp.from_i32,
          h0, h1, h2, providedDeleteOp_tryFrom]
      · simp [providedDeleteBinaryExpr_tryFrom, management.DeleteOp.from_i32,
          h0, h1, h2, providedDeleteOp_tryFrom]

/-- The expression-list conversion fails exactly when some expression's
operator wire value is invalid. -/
theorem collect_provided_exprs_fails_iff
    (es : List management.DeleteBinaryExpr) :
    (∃ v, collect_provided_exprs es = .error v) ↔
      ∃ e ∈ es, e.op ≠ 1 ∧ e.op ≠ 2 := by
  induction es with
  | nil => simp [collect_provided_exprs]
  | cons e es ih =>
    constructor
    · rintro ⟨v, hv⟩
      cases he : providedDeleteBinaryExpr_tryFrom e with
      | error w =>
        exact ⟨e, by simp,
          (deleteBinaryExpr_tryFrom_fails_iff e).mp ⟨w, he⟩⟩
      | ok e' =>
        cases hc : collect_provided_exprs es with
        | error w =>
          obtain ⟨x, hx, hxop⟩ := ih.mp ⟨w, hc⟩
          exact ⟨x, by simp [hx], hxop⟩
        | ok es' => simp [collect_provided_exprs, he, hc] at hv
    · rintro ⟨x, hx, hxop⟩
      rcases List.mem_cons.mp hx with rfl | hmem
      · obtain ⟨v, hv⟩ := (deleteBinaryExpr_tryFrom_fails_iff x).mpr hxop
        cases he : providedDeleteBinaryExpr_tryFrom x with
        | error w => exact ⟨w, by simp [collect_provided_exprs, he]⟩
        | ok e' => simp [he] at hv
      · obtain ⟨v, hv⟩ := ih.mpr ⟨x, hmem, hxop⟩
        cases he : providedDeleteBinaryExpr_tryFrom e with
        | error w => exact ⟨w, by simp [collect_provided_exprs, he]⟩
        | ok e' => exact ⟨v, by simp [collect_provided_exprs, he, hv]⟩

/-- C10: converting a `ProvidedParseDelete` to the management API
`ParseDelete` and back is the identity, and the backward conversion fails
with a `FieldViolation` exactly when some expression's operator field is
`Unspecified` (0) or out of range — i.e. not the wire value of `Eq` (1) or
`NotEq` (2). -/
theorem parse_delete_round_trip (p : ProvidedParseDelete)
    (m : management.ParseDelete) :
    providedParseDelete_tryFrom (parseDelete_from_provided p) = .ok p ∧
    ((∃ v, providedParseDelete_tryFrom m = .error v) ↔
      ∃ e ∈ m.exprs, e.op ≠ 1 ∧ e.op ≠ 2) := by
  constructor
  · cases p with
    | mk start_time stop_time predicate =>
      simp [providedParseDelete_tryFrom, parseDelete_from_provided,
        collect_provided_exprs_round_trip]
  · rw [← collect_provided_exprs_fails_iff]
    constructor
    · rintro ⟨v, hv⟩
      cases hc : collect_provided_exprs m.exprs with
      | error w => exact ⟨w, rfl⟩
      | ok es' => simp [providedParseDelete_tryFrom, hc] at hv
    · rintro ⟨v, hv⟩
      exact ⟨v, by simp [providedParseDelete_tryFrom, hv]⟩
